import Mathlib

/-!
Verification development for the head-rec-baselines training code.

The Python sources embedded here are `trainer.py` (the training loop) and
`utils/metrics.py` (the rasterized Hausdorff-distance evaluation metric).
Scalars carried by tensors are modelled as rationals (`ℚ`) where the claims
only involve field arithmetic and comparisons, and as reals (`ℝ`) where the
loss terms involve the exponential function.  Fallible Python operations
(array indexing, division, exceptions) are modelled with `Except String`.
-/

open scoped ENNReal

deriving instance DecidableEq for Except

/-! ## Embedding of `utils/metrics.py` -/

/-- Embeds `np.round` (numpy's default rounding, decimals = 0): round to the
nearest integer, ties to the nearest even integer. -/
def npRound (q : ℚ) : ℤ :=
  if q - ⌊q⌋ < 1/2 then ⌊q⌋
  else if 1/2 < q - ⌊q⌋ then ⌊q⌋ + 1
  else if ⌊q⌋ % 2 = 0 then ⌊q⌋ else ⌊q⌋ + 1

/-- Embeds `.astype('int32')` on an integral value: wrap into
`[-2^31, 2^31)` (C-style conversion of an integral float to int32). -/
def toInt32 (z : ℤ) : ℤ := (z + 2 ^ 31) % 2 ^ 32 - 2 ^ 31

/-- Embeds the coordinate rescaling of `hd_landmarks`
(`metrics.py` lines 26-27): `np.round(c*size).astype('int32').clip(0, size-1)`
applied to one scalar coordinate.  `np.clip(x, lo, hi)` is `min (max x lo) hi`. -/
def rescale (c : ℚ) (size : ℕ) : ℤ :=
  min (max (toInt32 (npRound (c * size))) 0) ((size : ℤ) - 1)

/-- Embeds numpy integer indexing into an axis of length `n`: an index `i`
with `0 ≤ i < n` is used as is, a negative index with `-n ≤ i < 0` wraps to
`i + n`, anything else raises `IndexError`. -/
def npIndexE (i : ℤ) (n : ℕ) : Except String ℤ :=
  if 0 ≤ i ∧ i < (n : ℤ) then .ok i
  else if -(n : ℤ) ≤ i ∧ i < 0 then .ok (i + n)
  else .error "IndexError"

/-- Embeds the rasterization loop of `hd_land` (`metrics.py` lines 11-18):
`coords = np.zeros(shape, dtype=bool); for x, y in zip(xs, ys): coords[(x, y)] = True`.
The boolean grid is represented by its set of `True` pixels, built by
successive insertion; each assignment index-checks both coordinates. -/
def raster (pts : List (ℤ × ℤ)) (size : ℕ) (acc : Finset (ℤ × ℤ)) :
    Except String (Finset (ℤ × ℤ)) :=
  match pts with
  | [] => .ok acc
  | p :: ps =>
    match npIndexE p.1 size, npIndexE p.2 size with
    | .ok x, .ok y => raster ps size (insert (x, y) acc)
    | .error e, _ => .error e
    | _, .error e => .error e

/-- Euclidean distance between two pixels, as used by
`skimage.metrics.hausdorff_distance` (via `scipy.spatial.cKDTree.query`). -/
noncomputable def pixDist (p q : ℤ × ℤ) : ℝ≥0∞ :=
  ENNReal.ofReal (Real.sqrt (((p.1 - q.1) ^ 2 + (p.2 - q.2) ^ 2 : ℤ) : ℝ))

/-- Embeds `skimage.metrics.hausdorff_distance` on two boolean grids given by
their sets of `True` pixels: `0` if both sets are empty, `inf` (here `⊤`) if
exactly one is empty, otherwise the symmetric Hausdorff distance
`max (max_{q ∈ b} min_{p ∈ a} d p q) (max_{p ∈ a} min_{q ∈ b} d p q)`. -/
noncomputable def hdGrid (a b : Finset (ℤ × ℤ)) : ℝ≥0∞ :=
  if a = ∅ then (if b = ∅ then 0 else ⊤)
  else if b = ∅ then ⊤
  else
    max (b.sup fun q => a.inf fun p => pixDist p q)
        (a.sup fun p => b.inf fun q => pixDist p q)

/-- Embeds `hd_land(target, pred, shape)` (`metrics.py` lines 4-21): rasterize
the target point set, then the predicted point set (exceptions propagate in
that order), then return their grid Hausdorff distance. -/
noncomputable def hd_land (target pred : List (ℤ × ℤ)) (size : ℕ) :
    Except String ℝ≥0∞ :=
  match raster target size ∅, raster pred size ∅ with
  | .ok a, .ok b => .ok (hdGrid a b)
  | .error e, _ => .error e
  | .ok _, .error e => .error e

/-- Python slice `l[a:b]` (for `0 ≤ a ≤ b`). -/
def pySlice {α : Type} (l : List α) (a b : ℕ) : List α := (l.take b).drop a

/-- Rescaling of a whole landmark array, coordinate-wise
(`metrics.py` lines 26-27). -/
def rescalePts (l : List (ℚ × ℚ)) (size : ℕ) : List (ℤ × ℤ) :=
  l.map fun c => (rescale c.1 size, rescale c.2 size)

/-- Embeds `hd_landmarks(out, label, size, heart)` (`metrics.py` lines 23-36):
rescale both arrays, slice the fixed anatomical regions `[:44]`, `[44:94]`
and, when `heart` is set, `[94:120]`, and compute one grid Hausdorff distance
per region.  The returned tuple is modelled as a list. -/
noncomputable def hd_landmarks (out label : List (ℚ × ℚ)) (size : ℕ)
    (heart : Bool) : Except String (List ℝ≥0∞) :=
  let target := rescalePts label size
  let pred := rescalePts out size
  match hd_land (pySlice target 0 44) (pySlice pred 0 44) size with
  | .error e => .error e
  | .ok hdRL =>
    match hd_land (pySlice target 44 94) (pySlice pred 44 94) size with
    | .error e => .error e
    | .ok hdLL =>
      if heart then
        match hd_land (pySlice target 94 120) (pySlice pred 94 120) size with
        | .error e => .error e
        | .ok hdH => .ok [hdRL, hdLL, hdH]
      else .ok [hdRL, hdLL]

/-- Rounding to the nearest integer with ties away from zero; this is the
policy named by the specification, written from its words for comparison
with the `np.round` policy actually embedded in `rescale`. -/
def roundHalfAway (q : ℚ) : ℤ := if 0 ≤ q then ⌊q + 1/2⌋ else ⌈q - 1/2⌉

/-! ## Helper lemmas about the metric embedding -/

theorem pixDist_self (p : ℤ × ℤ) : pixDist p p = 0 := by
  simp [pixDist]

theorem pixDist_comm (p q : ℤ × ℤ) : pixDist p q = pixDist q p := by
  have h : ((p.1 - q.1) ^ 2 + (p.2 - q.2) ^ 2 : ℤ) = (q.1 - p.1) ^ 2 + (q.2 - p.2) ^ 2 := by
    ring
  simp only [pixDist, h]

theorem hdGrid_self (s : Finset (ℤ × ℤ)) : hdGrid s s = 0 := by
  by_cases hs : s = ∅
  · simp [hdGrid, hs]
  · have hsup : (s.sup fun q => s.inf fun p => pixDist p q) = 0 := by
      apply le_antisymm _ (zero_le _)
      apply Finset.sup_le
      intro q hq
      calc (s.inf fun p => pixDist p q) ≤ pixDist q q := Finset.inf_le hq
        _ = 0 := pixDist_self q
    have hsup2 : (s.sup fun p => s.inf fun q => pixDist p q) = 0 := by
      apply le_antisymm _ (zero_le _)
      apply Finset.sup_le
      intro p hp
      calc (s.inf fun q => pixDist p q) ≤ pixDist p p := Finset.inf_le hp
        _ = 0 := pixDist_self p
    simp [hdGrid, hs, hsup, hsup2]

theorem hdGrid_comm (a b : Finset (ℤ × ℤ)) : hdGrid a b = hdGrid b a := by
  by_cases ha : a = ∅
  · by_cases hb : b = ∅
    · simp [hdGrid, ha, hb]
    · simp [hdGrid, ha, hb]
  · by_cases hb : b = ∅
    · simp [hdGrid, ha, hb]
    · simp only [hdGrid, if_neg ha, if_neg hb]
      rw [max_comm]
      congr 1
      · exact Finset.sup_congr rfl fun q _ => Finset.inf_congr rfl fun p _ => pixDist_comm q p
      · exact Finset.sup_congr rfl fun q _ => Finset.inf_congr rfl fun p _ => pixDist_comm p q

theorem raster_ok_of_in_range (size : ℕ) :
    ∀ (pts : List (ℤ × ℤ)) (acc : Finset (ℤ × ℤ)),
      (∀ p ∈ pts, 0 ≤ p.1 ∧ p.1 < (size : ℤ) ∧ 0 ≤ p.2 ∧ p.2 < (size : ℤ)) →
      ∃ s, raster pts size acc = .ok s := by
  intro pts
  induction pts with
  | nil => exact fun acc _ => ⟨acc, rfl⟩
  | cons p ps ih =>
    intro acc h
    have hp := h p (List.mem_cons_self p ps)
    have hx : npIndexE p.1 size = .ok p.1 := by
      unfold npIndexE
      rw [if_pos ⟨hp.1, hp.2.1⟩]
    have hy : npIndexE p.2 size = .ok p.2 := by
      unfold npIndexE
      rw [if_pos ⟨hp.2.2.1, hp.2.2.2⟩]
    obtain ⟨s, hs⟩ := ih (insert (p.1, p.2) acc) fun q hq => h q (List.mem_cons_of_mem p hq)
    exact ⟨s, by rw [raster, hx, hy]; exact hs⟩

theorem hd_land_self (pts : List (ℤ × ℤ)) (size : ℕ) (s : Finset (ℤ × ℤ))
    (h : raster pts size ∅ = .ok s) : hd_land pts pts size = .ok 0 := by
  simp [hd_land, h, hdGrid_self]

theorem hd_land_ok (A B : List (ℤ × ℤ)) (size : ℕ) (sA sB : Finset (ℤ × ℤ))
    (hA : raster A size ∅ = .ok sA) (hB : raster B size ∅ = .ok sB) :
    hd_land A B size = .ok (hdGrid sA sB) := by
  simp [hd_land, hA, hB]

/-! ## Claim theorems about the metric embedding -/

/-- C7: for point sets `A` and `B` with coordinates in `[0, size)`, the
region distance of `hd_land` is symmetric, and the distance of a point set
to itself is zero. -/
theorem hd_land_symm_self (A B : List (ℤ × ℤ)) (size : ℕ)
    (hA : ∀ p ∈ A, 0 ≤ p.1 ∧ p.1 < (size : ℤ) ∧ 0 ≤ p.2 ∧ p.2 < (size : ℤ))
    (hB : ∀ p ∈ B, 0 ≤ p.1 ∧ p.1 < (size : ℤ) ∧ 0 ≤ p.2 ∧ p.2 < (size : ℤ)) :
    hd_land A B size = hd_land B A size ∧ hd_land A A size = .ok 0 := by
  obtain ⟨sa, hsa⟩ := raster_ok_of_in_range size A ∅ hA
  obtain ⟨sb, hsb⟩ := raster_ok_of_in_range size B ∅ hB
  constructor
  · rw [hd_land_ok A B size sa sb hsa hsb, hd_land_ok B A size sb sa hsb hsa, hdGrid_comm]
  · exact hd_land_self A size sa hsa

/-- C7 witness: the symmetry and self-distance facts instantiated on the
concrete in-range point sets `[(0,0), (1,2)]` and `[(3,3)]` with grid size 4. -/
theorem hd_land_symm_self_witness :
    hd_land [((0:ℤ), 0), (1, 2)] [((3:ℤ), 3)] 4 = hd_land [((3:ℤ), 3)] [((0:ℤ), 0), (1, 2)] 4 ∧
    hd_land [((0:ℤ), 0), (1, 2)] [((0:ℤ), 0), (1, 2)] 4 = .ok 0 :=
  hd_land_symm_self [((0:ℤ), 0), (1, 2)] [((3:ℤ), 3)] 4 (by decide) (by decide)

/-- C4 counterexample: with an empty rasterized grid, `hd_land` does not
raise.  Both-sets-empty returns the distance `0` and exactly-one-set-empty
returns the infinite distance `⊤`, refuting the claim that an empty
rasterized set is surfaced as an error. -/
theorem hd_land_empty_no_raise_ce :
    raster ([] : List (ℤ × ℤ)) 4 ∅ = .ok (∅ : Finset (ℤ × ℤ)) ∧
    hd_land [] [] 4 = .ok 0 ∧
    hd_land [] [((1:ℤ), 1)] 4 = .ok ⊤ := by
  have hb : raster [((1:ℤ), 1)] 4 ∅ = .ok {((1:ℤ), 1)} := by decide
  refine ⟨rfl, ?_, ?_⟩
  · rw [hd_land_ok [] [] 4 ∅ ∅ rfl rfl]
    simp [hdGrid]
  · rw [hd_land_ok [] [((1:ℤ), 1)] 4 ∅ {((1:ℤ), 1)} rfl hb]
    simp [hdGrid]

/-- C4 (amended): a region whose rasterized grid has zero set pixels does not
raise a distinct error; `hd_land` returns `0` when both rasterized grids are
empty and the infinite distance `⊤` when exactly one of them is empty. -/
theorem hd_land_empty_grids (A B : List (ℤ × ℤ)) (size : ℕ)
    (sA sB : Finset (ℤ × ℤ))
    (hA : raster A size ∅ = .ok sA) (hB : raster B size ∅ = .ok sB) :
    (sA = ∅ → sB = ∅ → hd_land A B size = .ok 0) ∧
    (sA = ∅ → sB ≠ ∅ → hd_land A B size = .ok ⊤) ∧
    (sA ≠ ∅ → sB = ∅ → hd_land A B size = .ok ⊤) := by
  have h := hd_land_ok A B size sA sB hA hB
  refine ⟨?_, ?_, ?_⟩ <;> intro h1 h2 <;> rw [h] <;> simp [hdGrid, h1, h2]

/-- C4 witness: the amended behavior at a concrete input with an empty
prediction region and a nonempty target region. -/
theorem hd_land_empty_grids_witness : hd_land [] [((2:ℤ), 3)] 4 = .ok ⊤ :=
  (hd_land_empty_grids [] [((2:ℤ), 3)] 4 ∅ {((2:ℤ), 3)} rfl (by decide)).2.1 rfl
    (by decide)

/-! ## Rounding-policy lemmas (claim C3) -/

theorem npRound_floor_bounds (q : ℚ) : ⌊q⌋ ≤ npRound q ∧ npRound q ≤ ⌊q⌋ + 1 := by
  unfold npRound
  split_ifs <;> omega

theorem npRound_near (q : ℚ) : |q - (npRound q : ℚ)| ≤ 1/2 := by
  have h0 : (⌊q⌋ : ℚ) ≤ q := Int.floor_le q
  have h1 : q < ⌊q⌋ + 1 := Int.lt_floor_add_one q
  unfold npRound
  split_ifs with hlt hgt hev
  · rw [abs_of_nonneg (by linarith)]
    linarith
  · push_cast
    rw [abs_of_nonpos (by linarith)]
    linarith
  · rw [abs_of_nonneg (by linarith)]
    linarith
  · push_cast
    rw [abs_of_nonpos (by linarith)]
    linarith

theorem npRound_tie_even (q : ℚ) (h : |q - (npRound q : ℚ)| = 1/2) :
    npRound q % 2 = 0 := by
  have h0 : (⌊q⌋ : ℚ) ≤ q := Int.floor_le q
  have h1 : q < ⌊q⌋ + 1 := Int.lt_floor_add_one q
  unfold npRound at h ⊢
  split_ifs at h ⊢ with hlt hgt hev
  · rw [abs_of_nonneg (by linarith)] at h
    linarith
  · push_cast at h
    rw [abs_of_nonpos (by linarith)] at h
    linarith
  · exact hev
  · omega

theorem toInt32_eq_self (z : ℤ) (h1 : -(2 ^ 31) ≤ z) (h2 : z < 2 ^ 31) :
    toInt32 z = z := by
  unfold toInt32
  omega

theorem rescale_eq_clip_round (c : ℚ) (size : ℕ) (h0 : 0 ≤ c) (h1 : c ≤ 1)
    (hs : 0 < size) (hs2 : size ≤ 2 ^ 20) :
    rescale c size = min (max (npRound (c * size)) 0) ((size : ℤ) - 1) := by
  have hcs0 : (0 : ℚ) ≤ c * size := by positivity
  have hcs1 : c * size ≤ size := by
    calc c * size ≤ 1 * size := by
          apply mul_le_mul_of_nonneg_right h1 (by positivity)
      _ = size := one_mul _
  have hf0 : 0 ≤ ⌊c * (size : ℚ)⌋ := Int.floor_nonneg.2 hcs0
  have hf1 : ⌊c * (size : ℚ)⌋ ≤ size := by
    have := Int.floor_le_floor hcs1
    rwa [Int.floor_natCast] at this
  have hb := npRound_floor_bounds (c * size)
  unfold rescale
  rw [toInt32_eq_self _ (by omega) (by omega)]

/-- C3 counterexample: at normalized coordinate `5/2048` with grid size 1024
the product is exactly `5/2`; the code's rescaling (`np.round`, ties to even)
gives pixel 2, while the claimed round-half-away-from-zero policy would give
pixel 3. -/
theorem rescale_half_away_ce :
    rescale (5/2048) 1024 = 2 ∧
    min (max (roundHalfAway ((5/2048 : ℚ) * 1024)) 0) ((1024 : ℤ) - 1) = 3 := by
  constructor
  · norm_num [rescale, npRound, toInt32]
  · norm_num [roundHalfAway]

/-- C3 (amended): the boundary-distance rescaling maps a coordinate `c` to
`clip(round(c*size), 0, size-1)` where the rounding is round-half-to-even
(`np.round`): the rounded value is within `1/2` of the input and ties are
resolved to an even integer.  In particular `c = 1.0` with `size = 1024`
maps to pixel 1023, never 1024. -/
theorem rescale_rounding :
    (∀ q : ℚ, |q - (npRound q : ℚ)| ≤ 1/2 ∧
      (|q - (npRound q : ℚ)| = 1/2 → npRound q % 2 = 0)) ∧
    (∀ (c : ℚ) (size : ℕ), 0 ≤ c → c ≤ 1 → 0 < size → size ≤ 2 ^ 20 →
      rescale c size = min (max (npRound (c * size)) 0) ((size : ℤ) - 1)) ∧
    rescale 1 1024 = 1023 :=
  ⟨fun q => ⟨npRound_near q, npRound_tie_even q⟩,
   rescale_eq_clip_round,
   by norm_num [rescale, npRound, toInt32]⟩

/-- C3 witness: the clip-of-round form at the in-range coordinate `c = 1`
with `size = 1024`, and the tie-to-even guarantee at the tie `q = 5/2`. -/
theorem rescale_rounding_witness :
    rescale 1 1024 = min (max (npRound ((1 : ℚ) * 1024)) 0) ((1024 : ℤ) - 1) ∧
    npRound ((5 : ℚ)/2) % 2 = 0 :=
  ⟨rescale_rounding.2.1 1 1024 zero_le_one (le_refl 1) (by decide) (by decide),
   (rescale_rounding.1 (5/2)).2 (by
      rw [show npRound ((5 : ℚ)/2) = 2 from by norm_num [npRound]]
      norm_num)⟩

/-- C5: `hd_landmarks` partitions the rescaled landmark arrays into the fixed
index ranges `[0,44)`, `[44,94)` and, when the heart flag is set, `[94,120)`,
computes one grid Hausdorff distance per region, and returns exactly 3 values
with the heart and exactly 2 values without it. -/
theorem hd_landmarks_partition (out label : List (ℚ × ℚ)) (size : ℕ) :
    (hd_landmarks out label size true =
      (hd_land ((rescalePts label size).take 44) ((rescalePts out size).take 44)
          size).bind fun hdRL =>
        (hd_land (((rescalePts label size).drop 44).take 50)
            (((rescalePts out size).drop 44).take 50) size).bind fun hdLL =>
          (hd_land (((rescalePts label size).drop 94).take 26)
              (((rescalePts out size).drop 94).take 26) size).bind fun hdH =>
            .ok [hdRL, hdLL, hdH]) ∧
    (hd_landmarks out label size false =
      (hd_land ((rescalePts label size).take 44) ((rescalePts out size).take 44)
          size).bind fun hdRL =>
        (hd_land (((rescalePts label size).drop 44).take 50)
            (((rescalePts out size).drop 44).take 50) size).bind fun hdLL =>
          .ok [hdRL, hdLL]) ∧
    (∀ (heart : Bool) (v : List ℝ≥0∞),
      hd_landmarks out label size heart = .ok v → v.length = if heart then 3 else 2) := by
  have e0 : ∀ l : List (ℤ × ℤ), pySlice l 0 44 = l.take 44 := by
    intro l
    simp [pySlice]
  have e1 : ∀ l : List (ℤ × ℤ), pySlice l 44 94 = (l.drop 44).take 50 := by
    intro l
    simp only [pySlice]
    rw [List.drop_take]
  have e2 : ∀ l : List (ℤ × ℤ), pySlice l 94 120 = (l.drop 94).take 26 := by
    intro l
    simp only [pySlice]
    rw [List.drop_take]
  refine ⟨?_, ?_, ?_⟩
  · simp only [hd_landmarks, e0, e1, e2]
    cases h1 : hd_land ((rescalePts label size).take 44) ((rescalePts out size).take 44) size with
    | error e => simp [Except.bind]
    | ok r1 =>
      cases h2 : hd_land (((rescalePts label size).drop 44).take 50)
          (((rescalePts out size).drop 44).take 50) size with
      | error e => simp [Except.bind]
      | ok r2 =>
        cases h3 : hd_land (((rescalePts label size).drop 94).take 26)
            (((rescalePts out size).drop 94).take 26) size with
        | error e => simp [Except.bind]
        | ok r3 => simp [Except.bind]
  · simp only [hd_landmarks, e0, e1, e2]
    cases h1 : hd_land ((rescalePts label size).take 44) ((rescalePts out size).take 44) size with
    | error e => simp [Except.bind]
    | ok r1 =>
      cases h2 : hd_land (((rescalePts label size).drop 44).take 50)
          (((rescalePts out size).drop 44).take 50) size with
      | error e => simp [Except.bind]
      | ok r2 => simp [Except.bind]
  · intro heart v h
    simp only [hd_landmarks] at h
    cases h1 : hd_land (pySlice (rescalePts label size) 0 44)
        (pySlice (rescalePts out size) 0 44) size with
    | error e =>
      rw [h1] at h
      cases h
    | ok r1 =>
      rw [h1] at h
      cases h2 : hd_land (pySlice (rescalePts label size) 44 94)
          (pySlice (rescalePts out size) 44 94) size with
      | error e =>
        rw [h2] at h
        cases h
      | ok r2 =>
        rw [h2] at h
        cases heart with
        | false =>
          simp only [if_neg Bool.false_ne_true] at h
          cases h
          rfl
        | true =>
          simp only [if_pos rfl] at h
          cases h3 : hd_land (pySlice (rescalePts label size) 94 120)
              (pySlice (rescalePts out size) 94 120) size with
          | error e =>
            rw [h3] at h
            cases h
          | ok r3 =>
            rw [h3] at h
            cases h
            rfl

/-- C5 witness: a lungs-only evaluation on 94 landmarks all at normalized
coordinate `(0, 0)` with grid size 4 succeeds, and the returned list has
exactly 2 region distances. -/
theorem hd_landmarks_partition_witness :
    ([(0 : ℝ≥0∞), 0]).length = if false then 3 else 2 :=
  (hd_landmarks_partition (List.replicate 94 ((0 : ℚ), 0))
      (List.replicate 94 ((0 : ℚ), 0)) 4).2.2 false [0, 0] (by
    have hr : rescale 0 4 = 0 := by norm_num [rescale, npRound, toInt32]
    have hmap : rescalePts (List.replicate 94 ((0 : ℚ), 0)) 4 =
        List.replicate 94 ((0 : ℤ), 0) := by
      simp [rescalePts, List.map_replicate, hr]
    have hs1 : pySlice (List.replicate 94 ((0 : ℤ), (0 : ℤ))) 0 44 =
        List.replicate 44 ((0 : ℤ), (0 : ℤ)) := by decide
    have hs2 : pySlice (List.replicate 94 ((0 : ℤ), (0 : ℤ))) 44 94 =
        List.replicate 50 ((0 : ℤ), (0 : ℤ)) := by decide
    have hr1 : raster (List.replicate 44 ((0 : ℤ), 0)) 4 ∅ = .ok {((0 : ℤ), 0)} := by
      decide
    have hr2 : raster (List.replicate 50 ((0 : ℤ), 0)) 4 ∅ = .ok {((0 : ℤ), 0)} := by
      decide
    have h1 := hd_land_self (List.replicate 44 ((0 : ℤ), 0)) 4 {((0 : ℤ), 0)} hr1
    have h2 := hd_land_self (List.replicate 50 ((0 : ℤ), 0)) 4 {((0 : ℤ), 0)} hr2
    simp only [hd_landmarks]
    rw [hmap, hs1, hs2, h1, h2]
    rfl)

/-! ## Embedding of `trainer.py` -/

/-- Mean of a list of reals (`torch.mean` over a flattened tensor or along
one axis).  On the empty list this is `0/0 = 0` in `ℝ`; the training code
never takes the mean of an empty tensor. -/
noncomputable def listMean (xs : List ℝ) : ℝ := xs.sum / xs.length

/-- Embeds `F.mse_loss(a, b)` with the default mean reduction: the mean of
the elementwise squared differences of the flattened tensors. -/
noncomputable def mse (a b : List ℝ) : ℝ :=
  listMean ((a.zip b).map fun x => (x.1 - x.2) ^ 2)

/-- Embeds the closed-form KLD term of `trainer.py` line 92:
`-0.5 * torch.mean(torch.mean(1 + log_var - mu ** 2 - log_var.exp(), dim=1), dim=0)`
with `mu`, `log_var` of shape batch × latent (outer list = batch dim 0,
inner list = latent dim 1). -/
noncomputable def kldTerm (mu logVar : List (List ℝ)) : ℝ :=
  -(1/2) * listMean ((mu.zip logVar).map fun r =>
    listMean ((r.1.zip r.2).map fun x => 1 + x.2 - x.1 ^ 2 - Real.exp x.2))

/-- A model forward output as branched on by the training loop: a bare
tensor (PCA and FC models) or a Python tuple of tensors (HybridGNet). -/
inductive ModelOut
  | single (t : List ℝ)
  | multi (elems : List (List ℝ))

/-- Per-epoch training-loop state (`trainer.py` lines 62-103): the running
sums `train_loss_avg[-1]` and `train_rec_loss_avg[-1]`, the batch counter
`num_batches`, and the number of optimizer steps taken so far. -/
structure TrainState where
  totalAcc : ℝ
  recAcc : ℝ
  numBatches : ℕ
  optSteps : ℕ

/-- Embeds one iteration of the training batch loop (`trainer.py` lines
66-103).  A non-tuple output is the PCA/FC branch; a 3-tuple is the
HybridGNet branch with two intermediate supervision losses and the weighted
KLD term; any other tuple raises `Exception('Error unpacking outputs')`
before the accumulators are updated and before the optimizer step.
`targetDown` is `pool(target, model.downsample_matrices[0])`, computed by
the external graph pooling operator. -/
noncomputable def trainBatch (out : ModelOut) (target targetDown : List ℝ)
    (mu logVar : List (List ℝ)) (kldWeight : ℝ) (st : TrainState) :
    Except String TrainState :=
  match out with
  | .single o =>
    let outloss := mse o target
    let loss := outloss
    .ok ⟨st.totalAcc + loss, st.recAcc + outloss, st.numBatches + 1, st.optSteps + 1⟩
  | .multi es =>
    if es.length = 3 then
      let o := es.getD 0 []
      let p1 := es.getD 1 []
      let p2 := es.getD 2 []
      let pre1loss := mse p1 targetDown
      let pre2loss := mse p2 target
      let outloss := mse o target
      let loss := outloss + pre1loss + pre2loss + kldWeight * kldTerm mu logVar
      .ok ⟨st.totalAcc + loss, st.recAcc + outloss, st.numBatches + 1, st.optSteps + 1⟩
    else .error "Error unpacking outputs"

/-- The data consumed by one training batch iteration. -/
structure BatchData where
  out : ModelOut
  target : List ℝ
  targetDown : List ℝ
  mu : List (List ℝ)
  logVar : List (List ℝ)
  kldWeight : ℝ

/-- The training batch loop over a whole epoch: batches are processed
strictly sequentially and the first exception aborts the loop. -/
noncomputable def runEpochBatches : List BatchData → TrainState → Except String TrainState
  | [], st => .ok st
  | b :: bs, st =>
    match trainBatch b.out b.target b.targetDown b.mu b.logVar b.kldWeight st with
    | .ok st2 => runEpochBatches bs st2
    | .error e => .error e

/-- C1: for a 3-tuple model output (`final`, `intermediate_1`,
`intermediate_2`), the total loss accumulated for the batch is exactly
`mse(final, target) + mse(intermediate_1, pooled_target)
 + mse(intermediate_2, target) + kld_weight * kld_term` with the closed-form
KLD term, and the reconstruction-only accumulator receives exactly the bare
`mse(final, target)`; the batch counter and optimizer-step counter each
advance by one. -/
theorem trainBatch_tuple3_loss (o p1 p2 target targetDown : List ℝ)
    (mu logVar : List (List ℝ)) (kw : ℝ) (st : TrainState) :
    trainBatch (.multi [o, p1, p2]) target targetDown mu logVar kw st =
      .ok ⟨st.totalAcc + (mse o target + mse p1 targetDown + mse p2 target +
              kw * (-(1/2) * listMean ((mu.zip logVar).map fun r =>
                listMean ((r.1.zip r.2).map fun x =>
                  1 + x.2 - x.1 ^ 2 - Real.exp x.2)))),
           st.recAcc + mse o target, st.numBatches + 1, st.optSteps + 1⟩ := by
  simp [trainBatch, kldTerm]

/-- C8: a tuple-shaped model output whose arity is not 3 (for example 2 or 4)
makes the training loop raise `Exception('Error unpacking outputs')`; the
error carries no updated state, so neither the loss accumulators nor the
optimizer-step counter advance, and the whole epoch run aborts with that
error with no retry, regardless of any remaining batches. -/
theorem trainBatch_bad_shape (es : List (List ℝ)) (target targetDown : List ℝ)
    (mu logVar : List (List ℝ)) (kw : ℝ) (st : TrainState) (h : es.length ≠ 3) :
    trainBatch (.multi es) target targetDown mu logVar kw st =
      .error "Error unpacking outputs" ∧
    ∀ rest : List BatchData,
      runEpochBatches (⟨.multi es, target, targetDown, mu, logVar, kw⟩ :: rest) st =
        .error "Error unpacking outputs" := by
  have h1 : trainBatch (.multi es) target targetDown mu logVar kw st =
      .error "Error unpacking outputs" := by
    simp [trainBatch, h]
  exact ⟨h1, fun rest => by simp [runEpochBatches, h1]⟩

/-- C8 witness: a 2-tuple output aborts the batch with the unpacking error. -/
theorem trainBatch_bad_shape_witness :
    trainBatch (.multi [[(0 : ℝ)], [0]]) [] [] [] [] 0 ⟨0, 0, 0, 0⟩ =
      .error "Error unpacking outputs" :=
  (trainBatch_bad_shape [[(0 : ℝ)], [0]] [] [] [] [] 0 ⟨0, 0, 0, 0⟩ (by decide)).1

/-! ## Checkpointing policy (claim C2) -/

/-- The initial best-validation-loss sentinel `best = 1e12`
(`trainer.py` line 53). -/
def bestInit : ℚ := 10 ^ 12

/-- One flag per epoch: `true` iff the per-epoch check
`if val_loss_avg[-1] < best:` (`trainer.py` lines 154-158) fires for that
epoch, i.e. the best checkpoint file is overwritten; the updated best value
is threaded through the remaining epochs. -/
def checkpointFlags : ℚ → List ℚ → List Bool
  | _, [] => []
  | best, l :: ls => decide (l < best) :: checkpointFlags (if l < best then l else best) ls

/-- The phases of one epoch body, in the order they are executed by
`trainer` (`trainer.py` lines 60-160): the training batch loop, the
validation loop, the scalar logging, the best-checkpoint check, and the
learning-rate scheduler step. -/
inductive Phase
  | trainPhase
  | validatePhase
  | logPhase
  | checkpointPhase
  | schedulerPhase
  deriving DecidableEq

/-- The epoch body as the ordered list of its phases. -/
def epochPhases : List Phase :=
  [.trainPhase, .validatePhase, .logPhase, .checkpointPhase, .schedulerPhase]

theorem checkpointFlags_getD :
    ∀ (ls : List ℚ) (b : ℚ) (i : ℕ), i < ls.length →
      ((checkpointFlags b ls).getD i false = true ↔
        ls.getD i 0 < (ls.take i).foldl min b) := by
  intro ls
  induction ls with
  | nil =>
    intro b i h
    simp at h
  | cons l t ih =>
    intro b i h
    cases i with
    | zero => simp [checkpointFlags]
    | succ n =>
      have hn : n < t.length := by simpa using h
      have hmin : (if l < b then l else b) = min b l := by
        by_cases hlb : l < b
        · rw [if_pos hlb, min_eq_right hlb.le]
        · rw [if_neg hlb, min_eq_left (le_of_not_lt hlb)]
      have hrec := ih (if l < b then l else b) n hn
      rw [hmin] at hrec
      simp only [checkpointFlags, hmin, List.getD_cons_succ, List.take_succ_cons,
        List.foldl_cons]
      exact hrec

/-- C2: the best checkpoint is overwritten exactly at those epochs whose
averaged validation reconstruction loss is strictly less than the running
minimum of the sentinel `1e12` and all previous epochs' averaged losses;
and within the epoch body the checkpoint check occurs exactly once, after
the validation phase and before the scheduler step. -/
theorem checkpoint_best_policy :
    (∀ (losses : List ℚ) (i : ℕ), i < losses.length →
      ((checkpointFlags bestInit losses).getD i false = true ↔
        losses.getD i 0 < (losses.take i).foldl min bestInit)) ∧
    List.indexOf Phase.validatePhase epochPhases <
      List.indexOf Phase.checkpointPhase epochPhases ∧
    List.indexOf Phase.checkpointPhase epochPhases <
      List.indexOf Phase.schedulerPhase epochPhases ∧
    epochPhases.count Phase.checkpointPhase = 1 :=
  ⟨fun losses i h => checkpointFlags_getD losses bestInit i h,
   by decide, by decide, by decide⟩

/-- C2 witness: the overwrite criterion instantiated on the loss sequence
`[0.5, 0.3, 0.4, 0.2]` of the specification at epoch index 2. -/
theorem checkpoint_best_policy_witness :
    (checkpointFlags bestInit [1/2, 3/10, 2/5, 1/5]).getD 2 false = true ↔
      ([1/2, 3/10, 2/5, (1 : ℚ)/5].getD 2 0 <
        ([1/2, 3/10, 2/5, (1 : ℚ)/5].take 2).foldl min bestInit) :=
  checkpoint_best_policy.1 [1/2, 3/10, 2/5, 1/5] 2 (by decide)

/-! ## Validation prediction selection (claim C6) -/

/-- A tensor modelled as a nested array of rationals — enough structure to
give the Python `len` and `[0]` operators their tensor semantics. -/
inductive PyTensor
  | scalar (q : ℚ)
  | arr (elems : List PyTensor)

/-- A validation forward output: a bare tensor or a Python tuple of tensors. -/
inductive PyVal
  | ten (t : PyTensor)
  | tup (elems : List PyTensor)

/-- Whether a forward output is a Python tuple. -/
def isTuple : PyVal → Bool
  | .tup _ => true
  | .ten _ => false

/-- Python `len(out)`: the arity for a tuple, the first-dimension size for a
tensor; `len` of a 0-dimensional tensor raises `TypeError`. -/
def pyLen : PyVal → Except String ℕ
  | .tup es => .ok es.length
  | .ten (.arr es) => .ok es.length
  | .ten (.scalar _) => .error "TypeError: len of a 0-d tensor"

/-- Python `out[0]`: the first tuple component, or the first row of a
tensor; raises `IndexError` when empty. -/
def pyFirst : PyVal → Except String PyVal
  | .tup (e :: _) => .ok (.ten e)
  | .tup [] => .error "IndexError"
  | .ten (.arr (t :: _)) => .ok (.ten t)
  | .ten (.arr []) => .error "IndexError"
  | .ten (.scalar _) => .error "IndexError"

/-- Embeds the validation prediction selection (`trainer.py` lines 122-124):
`out = model(image)` followed by `if len(out) > 1: out = out[0]`. -/
def valSelect (out : PyVal) : Except String PyVal :=
  match pyLen out with
  | .error e => .error e
  | .ok n => if n > 1 then pyFirst out else .ok out

/-- C6 counterexample: a single (non-tuple) tensor whose first dimension is
2 is not used unchanged — the selection takes its first row, because the
code branches on `len(out) > 1`, not on tuple-ness. -/
theorem valSelect_tensor_ce :
    isTuple (PyVal.ten (PyTensor.arr [PyTensor.scalar 0, PyTensor.scalar 1])) = false ∧
    valSelect (PyVal.ten (PyTensor.arr [PyTensor.scalar 0, PyTensor.scalar 1])) =
      .ok (PyVal.ten (PyTensor.scalar 0)) ∧
    PyVal.ten (PyTensor.scalar 0) ≠
      PyVal.ten (PyTensor.arr [PyTensor.scalar 0, PyTensor.scalar 1]) := by
  refine ⟨rfl, rfl, ?_⟩
  intro h
  cases h

/-- C6 (amended): the validation prediction is `out[0]` exactly when the
Python `len` of the output exceeds 1; so a 3-tuple yields its first
component, while a single tensor is used unchanged precisely when its first
dimension is at most 1 — which is the case under the configured
`val_batch_size = 1`. -/
theorem valSelect_len_rule (t1 t2 t3 y : PyTensor) (ys : List PyTensor) :
    valSelect (.tup [t1, t2, t3]) = .ok (.ten t1) ∧
    valSelect (.ten (.arr [y])) = .ok (.ten (.arr [y])) ∧
    valSelect (.ten (.arr [])) = .ok (.ten (.arr [])) ∧
    (ys ≠ [] → valSelect (.ten (.arr (y :: ys))) = .ok (.ten y)) := by
  refine ⟨rfl, rfl, rfl, ?_⟩
  intro h
  cases ys with
  | nil => exact absurd rfl h
  | cons z zs =>
    simp only [valSelect, pyLen, pyFirst]
    rw [if_pos (by simp)]

/-- C6 witness: a 3-tuple yields its first component, and a two-row tensor
(nonempty tail) yields its first row. -/
theorem valSelect_len_rule_witness :
    valSelect (.ten (.arr [PyTensor.scalar 5, PyTensor.scalar 7])) =
      .ok (.ten (PyTensor.scalar 5)) :=
  (valSelect_len_rule (PyTensor.scalar 5) (PyTensor.scalar 5) (PyTensor.scalar 5)
      (PyTensor.scalar 5) [PyTensor.scalar 7]).2.2.2 (by simp)

/-! ## Run-directory creation (claim C9) -/

/-- The possible outcomes of the `os.mkdir` call in the `trainer` setup. -/
inductive MkdirOutcome
  | success
  | fileExists
  | permissionDenied
  | parentMissing
  deriving DecidableEq

/-- `os.mkdir(folder)`: succeeds, or raises its failure as an exception. -/
def osMkdir (r : MkdirOutcome) : Except MkdirOutcome Unit :=
  match r with
  | .success => .ok ()
  | e => .error e

/-- Embeds `try: os.mkdir(folder) except: pass` (`trainer.py` lines 46-49):
the bare `except` catches every exception and discards it. -/
def setupRunDir (r : MkdirOutcome) : Except MkdirOutcome Unit :=
  match osMkdir r with
  | .ok u => .ok u
  | .error _ => .ok ()

/-- The directory-creation behavior described by the specification, written
from its words: swallow the failure only when the directory already exists,
propagate every other failure. -/
def setupRunDirSpec (r : MkdirOutcome) : Except MkdirOutcome Unit :=
  match osMkdir r with
  | .ok u => .ok u
  | .error .fileExists => .ok ()
  | .error e => .error e

/-- C9 counterexample: a permission-denied failure of `os.mkdir` is
swallowed by the code, while the specified behavior propagates it. -/
theorem setupRunDir_bare_except_ce :
    setupRunDir .permissionDenied = .ok () ∧
    setupRunDirSpec .permissionDenied = .error .permissionDenied :=
  ⟨rfl, rfl⟩

/-- C9 (amended): the bare `except: pass` around `os.mkdir` swallows every
directory-creation failure — the already-exists case, but equally permission
errors and a missing parent directory; no failure propagates. -/
theorem setupRunDir_swallows_all : ∀ r : MkdirOutcome, setupRunDir r = .ok () := by
  intro r
  cases r <;> rfl

/-! ## End-of-epoch averaging (claim C10) -/

/-- Python float division by an integer count: raises `ZeroDivisionError`
when the divisor is zero. -/
def pyDiv (x : ℚ) (n : ℕ) : Except String ℚ :=
  if n = 0 then .error "ZeroDivisionError" else .ok (x / n)

/-- Embeds the end-of-epoch averaging and metric logging (`trainer.py`
lines 105-150): divide the four accumulated sums by the train and the
validation batch counts in program order, then emit the four scalar log
entries written by `writer.add_scalar` (the two MSE entries rescaled by
`1024 * 1024`). -/
def epochFinalize (tl tr : ℚ) (nTrain : ℕ) (vl vh : ℚ) (nVal : ℕ) :
    Except String (List (String × ℚ)) :=
  match pyDiv tl nTrain with
  | .error e => .error e
  | .ok tlAvg =>
    match pyDiv tr nTrain with
    | .error e => .error e
    | .ok trAvg =>
      match pyDiv vl nVal with
      | .error e => .error e
      | .ok vlAvg =>
        match pyDiv vh nVal with
        | .error e => .error e
        | .ok vhAvg =>
          .ok [("Train/Loss", tlAvg), ("Train/MSE", trAvg * 1024 * 1024),
               ("Validation/MSE", vlAvg * 1024 * 1024),
               ("Validation/Hausdorff Distance", vhAvg)]

/-- C10: the per-epoch averaging divides by the batch counts with no guard,
so the epoch tail completes and logs its four metrics exactly when both the
training and the validation loader produced at least one batch; a zero batch
count on either side aborts with `ZeroDivisionError` before any metric is
logged. -/
theorem epochFinalize_divzero (tl tr vl vh : ℚ) (nTrain nVal : ℕ) :
    (nTrain = 0 ∨ nVal = 0 →
      epochFinalize tl tr nTrain vl vh nVal = .error "ZeroDivisionError") ∧
    (nTrain ≠ 0 → nVal ≠ 0 →
      epochFinalize tl tr nTrain vl vh nVal =
        .ok [("Train/Loss", tl / nTrain), ("Train/MSE", tr / nTrain * 1024 * 1024),
             ("Validation/MSE", vl / nVal * 1024 * 1024),
             ("Validation/Hausdorff Distance", vh / nVal)]) := by
  constructor
  · rintro (h | h)
    · simp [epochFinalize, pyDiv, h]
    · by_cases hT : nTrain = 0
      · simp [epochFinalize, pyDiv, hT]
      · simp [epochFinalize, pyDiv, hT, h]
  · intro h1 h2
    simp [epochFinalize, pyDiv, h1, h2]

/-- C10 witness: a zero training batch count aborts with the division
error, and nonzero counts on both sides log the four averaged metrics. -/
theorem epochFinalize_divzero_witness :
    epochFinalize 1 2 0 3 4 5 = .error "ZeroDivisionError" ∧
    epochFinalize 1 2 2 3 4 1 =
      .ok [("Train/Loss", 1 / ((2 : ℕ) : ℚ)), ("Train/MSE", 2 / ((2 : ℕ) : ℚ) * 1024 * 1024),
           ("Validation/MSE", 3 / ((1 : ℕ) : ℚ) * 1024 * 1024),
           ("Validation/Hausdorff Distance", 4 / ((1 : ℕ) : ℚ))] :=
  ⟨(epochFinalize_divzero 1 2 3 4 0 5).1 (Or.inl rfl),
   (epochFinalize_divzero 1 2 3 4 2 1).2 (by decide) (by decide)⟩
